import Mathlib

/-!
Verification development for the asynchronous task-processing engine in
`async_processor.py` (class `AsyncProcessor` and dataclass `Task`).

The engine is shallowly embedded: the Redis-backed state (task hash,
priority sorted set, processing set, result hash, in-process statistics)
becomes an explicit `EngineState`, and each public method or background
step becomes a pure state-transformer translated line by line from the
source.  Wall-clock instants (`time.time()`, `datetime.utcnow()`) are
modelled as integer seconds passed in explicitly; handler outcomes are
passed in as oracles (`Except String Json`, covering both a raised
exception and a `future.result` timeout, which the source treats
identically).  Stored JSON blobs are modelled by `Stored`: either a
well-formed record (`Stored.good`) or an unparseable one (`Stored.bad`,
on which `json.loads` raises).
-/

/-- Enumeration `TaskStatus` from `async_processor.py` (values are the
Python enum's string values, used by `to_dict`/`from_dict`). -/
inductive TaskStatus where
  | pending
  | running
  | completed
  | failed
  | cancelled
  | expired
deriving DecidableEq

/-- String value of a `TaskStatus` member (`status.value` in Python). -/
def TaskStatus.value : TaskStatus → String
  | .pending => "pending"
  | .running => "running"
  | .completed => "completed"
  | .failed => "failed"
  | .cancelled => "cancelled"
  | .expired => "expired"

/-- Enumeration `TaskPriority` from `async_processor.py` (`LOW = 1`,
`NORMAL = 2`, `HIGH = 3`, `CRITICAL = 4`). -/
inductive TaskPriority where
  | low
  | normal
  | high
  | critical
deriving DecidableEq

/-- Integer value of a `TaskPriority` member (`priority.value` in Python). -/
def TaskPriority.value : TaskPriority → Int
  | .low => 1
  | .normal => 2
  | .high => 3
  | .critical => 4

/-- JSON-representable values: payloads and results are opaque structured
data (`Dict[str, Any]` restricted to JSON content, per the claims). -/
inductive Json where
  | null
  | bool (b : Bool)
  | num (n : Int)
  | str (s : String)
  | arr (elems : List Json)
  | obj (fields : List (String × Json))

/-- Task record as the engine manipulates it: the fields of the `Task`
dataclass, with timestamps abstracted to integer UTC seconds (the engine
only ever compares timestamp differences, via `total_seconds()`). -/
structure TaskRec where
  id : String
  ttype : String
  payload : List (String × Json)
  status : TaskStatus
  priority : TaskPriority
  created_at : Int
  started_at : Option Int
  completed_at : Option Int
  result : Option Json
  error : Option String
  retry_count : Nat
  max_retries : Nat
  timeout : Int
  session_id : Option String
  user_id : Option String

/-- Stored task blob: the JSON string held in the Redis hash either
parses back to a record or is malformed (`json.loads` raises on it). -/
inductive Stored where
  | good (t : TaskRec)
  | bad

/-- Result record written to the results hash: the success path stores
`{result, completed_at}`, the terminal-failure path stores
`{error, completed_at, traceback}` (the traceback text is elided). -/
structure ResultRec where
  result : Option Json
  error : Option String
  completed_at : Int

/-- In-process statistics counters (`self.stats`); the floating-point
`average_processing_time` is outside the integer model and not tracked. -/
structure Stats where
  tasks_processed : Nat
  tasks_failed : Nat
  tasks_cancelled : Nat
  active_workers : Nat
deriving DecidableEq

/-- Lookup in an association list, modelling Redis `HGET` (and `ZSCORE`
on the sorted set viewed as member-to-score). -/
def hget {α : Type} : List (String × α) → String → Option α
  | [], _ => none
  | (k', v) :: t, k => if k' = k then some v else hget t k

/-- Insert-or-overwrite in an association list, modelling Redis `HSET`
(and `ZADD`, which updates the score of an existing member). -/
def hset {α : Type} : List (String × α) → String → α → List (String × α)
  | [], k, v => [(k, v)]
  | (k', v') :: t, k, v => if k' = k then (k, v) :: t else (k', v') :: hset t k v

/-- Remove a key from an association list, modelling Redis `HDEL`/`ZREM`. -/
def hdel {α : Type} : List (String × α) → String → List (String × α)
  | [], _ => []
  | (k', v') :: t, k => if k' = k then hdel t k else (k', v') :: hdel t k

/-- Add a member to a set of ids, modelling Redis `SADD`. -/
def sadd (l : List String) (x : String) : List String :=
  if x ∈ l then l else x :: l

/-- Remove a member from a set of ids, modelling Redis `SREM`. -/
def srem : List String → String → List String
  | [], _ => []
  | y :: t, x => if y = x then srem t x else y :: srem t x

/-- Pop the best-ranked member of the sorted set, modelling Redis
`BZPOPMIN`: the member with the smallest score is returned and removed
(ties broken by the lexicographically smallest member, as in Redis). -/
def zpopmin (l : List (String × Int)) : Option (String × Int) × List (String × Int) :=
  match l with
  | [] => (none, [])
  | p :: t =>
    let best := t.foldl
      (fun b q => if q.2 < b.2 ∨ (q.2 = b.2 ∧ q.1 < b.1) then q else b) p
    (some best, hdel l best.1)

/-- Full engine state: the four Redis collections used by
`AsyncProcessor` plus the in-process statistics. -/
structure EngineState where
  tasks : List (String × Stored)
  queue : List (String × Int)
  processing : List String
  results : List (String × ResultRec)
  stats : Stats

/-- State of a freshly constructed `AsyncProcessor`: empty collections,
all counters zero. -/
def initState : EngineState :=
  { tasks := [], queue := [], processing := [], results := [], stats := ⟨0, 0, 0, 0⟩ }

/-- Translation of `AsyncProcessor.submit_task`: build the `Task`
record (`__post_init__` stamps `created_at = utcnow`), `HSET` it into
the task hash, and `ZADD` the id into the queue with score
`priority.value * 1000000 + int(time.time())`.  The generated UUID is
passed in as `id`; `now` stands for the current clock. -/
def submitTask (s : EngineState) (id ttype : String) (payload : List (String × Json))
    (priority : TaskPriority) (timeout : Int) (max_retries : Nat)
    (session_id user_id : Option String) (now : Int) : String × EngineState :=
  let t : TaskRec :=
    { id := id, ttype := ttype, payload := payload, status := .pending,
      priority := priority, created_at := now, started_at := none,
      completed_at := none, result := none, error := none, retry_count := 0,
      max_retries := max_retries, timeout := timeout,
      session_id := session_id, user_id := user_id }
  (id, { s with tasks := hset s.tasks id (.good t),
                queue := hset s.queue id (priority.value * 1000000 + now) })

/-- Translation of `AsyncProcessor.get_task_status`: `HGET` the record
(`None`/malformed both yield `None` — the `except` clause returns
`None`); when the status is completed or failed, merge `result` and
`error` from the results hash. -/
def getTaskStatus (s : EngineState) (id : String) : Option TaskRec :=
  match hget s.tasks id with
  | none => none
  | some .bad => none
  | some (.good t) =>
    if t.status = .completed ∨ t.status = .failed then
      match hget s.results id with
      | none => some t
      | some r => some { t with result := r.result, error := r.error }
    else some t

/-- Translation of `AsyncProcessor.cancel_task`: `ZREM` the id from the
queue first (recording whether it was present), then, if the stored
record parses and is still `pending`, mark it `cancelled` with
`completed_at = utcnow` and return `True`; otherwise return
`bool(removed)`.  A malformed record makes `json.loads` raise, and the
`except` clause returns `False` (the `ZREM` has already taken effect). -/
def cancelTask (s : EngineState) (id : String) (now : Int) : Bool × EngineState :=
  let removed := (hget s.queue id).isSome
  let s1 := { s with queue := hdel s.queue id }
  match hget s1.tasks id with
  | none => (removed, s1)
  | some Stored.bad => (false, s1)
  | some (Stored.good t) =>
    if t.status = .pending then
      let t' := { t with status := TaskStatus.cancelled, completed_at := some now }
      (true, { s1 with tasks := hset s1.tasks id (.good t') })
    else (removed, s1)

/-- Translation of `AsyncProcessor._is_task_expired`: non-positive
timeout never expires; otherwise the task is expired when its age
`now - created_at` exceeds `timeout`. -/
def isTaskExpired (now : Int) (t : TaskRec) : Bool :=
  if t.timeout ≤ 0 then false else decide (now - t.created_at > t.timeout)

/-- Translation of `AsyncProcessor._mark_task_expired`: set status
`expired`, stamp `completed_at`, record the error string. -/
def markTaskExpired (now : Int) (t : TaskRec) : TaskRec :=
  { t with status := .expired, completed_at := some now, error := some "Task expired" }

/-- Translation of `AsyncProcessor._process_task`, invoked after the id
has already been popped from the queue.  `hExists` says whether
`self.task_handlers` has a handler for the task's type; `hRes` is the
handler outcome (`.error e` covers both a raised exception and a
`future.result` timeout).  Faithful control flow:
* missing record: early `return` (state unchanged);
* malformed record: `json.loads` raises, the outer `except` runs only
  `SREM`;
* expired record: `_mark_task_expired`, early return;
* no handler: `raise ValueError` occurs outside the inner `try`, so the
  outer `except` runs only `SREM` — the record stays `running`;
* handler success: mark `completed`, write the result record, bump
  `tasks_processed`, re-store the task;
* handler failure: increment `retry_count`; within budget, `ZADD` the id
  back with score `time.time() + min(2 ** retry_count, 300)` and relabel
  `pending`; otherwise write the error result and bump `tasks_failed`;
  in both cases re-store the task and `SREM` the processing set. -/
def processTask (s : EngineState) (id : String) (now : Int) (hExists : Bool)
    (hRes : Except String Json) : EngineState :=
  match hget s.tasks id with
  | none => s
  | some .bad => { s with processing := srem s.processing id }
  | some (.good t) =>
    if isTaskExpired now t then
      { s with tasks := hset s.tasks id (.good (markTaskExpired now t)) }
    else
      let t1 := { t with status := TaskStatus.running, started_at := some now }
      let s1 := { s with tasks := hset s.tasks id (.good t1),
                         processing := sadd s.processing id }
      if hExists then
        match hRes with
        | .ok r =>
          let t2 := { t1 with status := TaskStatus.completed,
                              completed_at := some now, result := some r }
          { s1 with
            results := hset s1.results id ⟨some r, none, now⟩,
            stats := { s1.stats with tasks_processed := s1.stats.tasks_processed + 1 },
            tasks := hset s1.tasks id (.good t2),
            processing := srem s1.processing id }
        | .error e =>
          let rc := t1.retry_count + 1
          let t2 := { t1 with status := TaskStatus.failed, completed_at := some now,
                              error := some e, retry_count := rc }
          if rc ≤ t1.max_retries then
            { s1 with
              queue := hset s1.queue id (now + ((min (2 ^ rc) 300 : Nat) : Int)),
              tasks := hset s1.tasks id (.good { t2 with status := TaskStatus.pending }),
              processing := srem s1.processing id }
          else
            { s1 with
              results := hset s1.results id ⟨none, some e, now⟩,
              stats := { s1.stats with tasks_failed := s1.stats.tasks_failed + 1 },
              tasks := hset s1.tasks id (.good t2),
              processing := srem s1.processing id }
      else
        { s1 with processing := srem s1.processing id }

/-- Translation of one iteration of `AsyncProcessor._worker_loop`:
`_get_next_task` pops via `BZPOPMIN` (no task: the iteration is a
no-op) and the popped id is handed to `_process_task`. -/
def workerStep (s : EngineState) (now : Int) (hExists : Bool)
    (hRes : Except String Json) : EngineState :=
  match zpopmin s.queue with
  | (none, _) => s
  | (some (id, _), q) => processTask { s with queue := q } id now hExists hRes

/-- Predicate used by `AsyncProcessor._cleanup_expired_tasks` to collect
expired ids: the record parses, its age exceeds its timeout, and it is
still pending (malformed records raise and are skipped by the per-task
`except`). -/
def cleanupSelects (now : Int) (p : String × Stored) : Bool :=
  match p.2 with
  | .bad => false
  | .good t => decide (now - t.created_at > t.timeout) && decide (t.status = .pending)

/-- Translation of `AsyncProcessor._cleanup_expired_tasks`: every
expired pending id is `ZREM`ed from the queue.  The task records
themselves are not written (the loop body only removes queue entries). -/
def cleanupExpiredTasks (s : EngineState) (now : Int) : EngineState :=
  let q' := s.tasks.foldl (fun q p => if cleanupSelects now p then hdel q p.1 else q) s.queue
  { s with queue := q' }

/-- Translation of `AsyncProcessor._cleanup_old_results`: delete result
entries whose `completed_at` is older than `result_ttl`. -/
def cleanupOldResults (s : EngineState) (now ttl : Int) : EngineState :=
  { s with results := s.results.filter (fun p => !(decide (now - p.2.completed_at > ttl))) }

/-- Translation of one iteration of `AsyncProcessor._cleanup_loop` (the
Reaper): expired-task sweep followed by old-result purge. -/
def reaperCycle (s : EngineState) (now ttl : Int) : EngineState :=
  cleanupOldResults (cleanupExpiredTasks s now) now ttl

/-- Statistics report assembled by `AsyncProcessor.get_stats`: the
copied counters plus queue/processing/total sizes. -/
structure StatsReport where
  tasks_processed : Nat
  tasks_failed : Nat
  tasks_cancelled : Nat
  active_workers : Nat
  queue_size : Nat
  processing_size : Nat
  total_tasks : Nat

/-- Translation of `AsyncProcessor.get_stats`: copy the counters under
the lock and add `ZCARD`/`SCARD`/`HLEN` of the collections. -/
def getStats (s : EngineState) : StatsReport :=
  { tasks_processed := s.stats.tasks_processed,
    tasks_failed := s.stats.tasks_failed,
    tasks_cancelled := s.stats.tasks_cancelled,
    active_workers := s.stats.active_workers,
    queue_size := s.queue.length,
    processing_size := s.processing.length,
    total_tasks := s.tasks.length }

/-- One atomic engine step, as observable between public operations:
a submission (with a fresh UUID — `uuid4` collisions are excluded), a
cancellation, one worker iteration, or one of the two Reaper sweeps. -/
inductive Step : EngineState → EngineState → Prop
  | submit (s : EngineState) (id ttype : String) (payload : List (String × Json))
      (priority : TaskPriority) (timeout : Int) (max_retries : Nat)
      (session_id user_id : Option String) (now : Int) :
      hget s.tasks id = none →
      Step s (submitTask s id ttype payload priority timeout max_retries
                session_id user_id now).2
  | cancel (s : EngineState) (id : String) (now : Int) :
      Step s (cancelTask s id now).2
  | worker (s : EngineState) (now : Int) (hExists : Bool) (hRes : Except String Json) :
      Step s (workerStep s now hExists hRes)
  | reaper (s : EngineState) (now : Int) :
      Step s (cleanupExpiredTasks s now)
  | purge (s : EngineState) (now ttl : Int) :
      Step s (cleanupOldResults s now ttl)

/-- Reachability from the freshly constructed engine. -/
def Reachable (s : EngineState) : Prop :=
  Relation.ReflTransGen Step initState s

/-- Behaviour of `submit_task` when a Redis operation raises (store
unavailable): the `except` clause logs and re-raises (`raise`), so the
failure surfaces to the caller.  `storeFail` is the oracle for whether
the store operation raised. -/
def submitTaskApi (storeFail : Bool) (s : EngineState) (id ttype : String)
    (payload : List (String × Json)) (priority : TaskPriority) (timeout : Int)
    (max_retries : Nat) (session_id user_id : Option String) (now : Int) :
    Except Unit (String × EngineState) :=
  if storeFail then Except.error ()
  else Except.ok (submitTask s id ttype payload priority timeout max_retries
    session_id user_id now)

/-- Behaviour of `get_task_status` when a Redis operation raises: the
`except` clause logs and returns `None` — the same value as for a
missing task. -/
def getTaskStatusApi (storeFail : Bool) (s : EngineState) (id : String) : Option TaskRec :=
  if storeFail then none else getTaskStatus s id

/-- Behaviour of `cancel_task` when a Redis operation raises: the
`except` clause logs and returns `False` — the same value as for an
unsuccessful cancellation. -/
def cancelTaskApi (storeFail : Bool) (s : EngineState) (id : String) (now : Int) : Bool :=
  if storeFail then false else (cancelTask s id now).1

/-- Scenario for the retry-exhaustion property: one task whose handler
raises on every invocation.  `times k` is the clock at the k-th worker
iteration; `err` the exception text (`str(e)`). -/
structure FailScenario where
  id : String
  ttype : String
  payload : List (String × Json)
  priority : TaskPriority
  timeout : Int
  max_retries : Nat
  t0 : Int
  times : Nat → Int
  err : String

/-- Engine states of the failing-handler scenario: state 0 is the state
right after submission; state k+1 is one worker iteration (with the
handler raising) after state k. -/
def FailScenario.run (sc : FailScenario) : Nat → EngineState
  | 0 => (submitTask initState sc.id sc.ttype sc.payload sc.priority sc.timeout
      sc.max_retries none none sc.t0).2
  | k + 1 => workerStep (sc.run k) (sc.times k) true (.error sc.err)

/-- Task record freshly created by the scenario's submission. -/
def FailScenario.rec0 (sc : FailScenario) : TaskRec :=
  { id := sc.id, ttype := sc.ttype, payload := sc.payload, status := .pending,
    priority := sc.priority, created_at := sc.t0, started_at := none,
    completed_at := none, result := none, error := none, retry_count := 0,
    max_retries := sc.max_retries, timeout := sc.timeout,
    session_id := none, user_id := none }

/-- Stored task record before the k-th attempt of the scenario: the
fresh record for k = 0; after k failed attempts, relabeled `pending`
with `retry_count = k` and the failure metadata of attempt k-1. -/
def FailScenario.recAt (sc : FailScenario) : Nat → TaskRec
  | 0 => sc.rec0
  | k + 1 =>
    { sc.rec0 with started_at := some (sc.times k), completed_at := some (sc.times k),
                   error := some sc.err, retry_count := k + 1 }

/-- Queue score of the scenario's task before its k-th attempt: the
submission score for k = 0, and the retry score
`time.time() + min(2 ** retry_count, 300)` afterwards. -/
def FailScenario.scoreAt (sc : FailScenario) : Nat → Int
  | 0 => sc.priority.value * 1000000 + sc.t0
  | k + 1 => sc.times k + ((min (2 ^ (k + 1)) 300 : Nat) : Int)

/-- Terminal record of the scenario: stored after the final attempt
(number `max_retries + 1`) exhausts the budget. -/
def FailScenario.finalRec (sc : FailScenario) : TaskRec :=
  { sc.rec0 with status := .failed,
                 started_at := some (sc.times sc.max_retries),
                 completed_at := some (sc.times sc.max_retries),
                 error := some sc.err, retry_count := sc.max_retries + 1 }

/-- Datetime value as `datetime.utcnow()` produces it (naive UTC):
calendar fields plus microseconds.  Only the textual round trip through
`isoformat`/`fromisoformat` is modelled, which is all
`Task.to_dict`/`Task.from_dict` use. -/
structure DT where
  year : Nat
  month : Nat
  day : Nat
  hour : Nat
  minute : Nat
  second : Nat
  microsecond : Nat
deriving DecidableEq

/-- Decimal digit character for a value below ten. -/
def digitChar (n : Nat) : Char := Char.ofNat (48 + n)

/-- Fixed-width zero-padded decimal numeral, most significant digit
first (the `%04d`-style fields of `datetime.isoformat`). -/
def padNum : Nat → Nat → List Char
  | 0, _ => []
  | w + 1, n => digitChar (n / 10 ^ w) :: padNum w (n % 10 ^ w)

/-- Character list produced by `datetime.isoformat()`:
`YYYY-MM-DDTHH:MM:SS`, extended with `.ffffff` exactly when the
microsecond field is nonzero. -/
def DT.isoformatL (d : DT) : List Char :=
  padNum 4 d.year ++ '-' :: padNum 2 d.month ++ '-' :: padNum 2 d.day ++
    'T' :: padNum 2 d.hour ++ ':' :: padNum 2 d.minute ++ ':' :: padNum 2 d.second ++
    (if d.microsecond = 0 then [] else '.' :: padNum 6 d.microsecond)

/-- Translation of `datetime.isoformat()`. -/
def DT.isoformat (d : DT) : String := String.mk d.isoformatL

/-- Read exactly `w` decimal digits, folding them onto `acc`; `none` if
a non-digit appears or the input is exhausted. -/
def readNumAux : Nat → Nat → List Char → Option (Nat × List Char)
  | 0, acc, l => some (acc, l)
  | w + 1, acc, c :: l =>
    if c.isDigit then readNumAux w (acc * 10 + (c.toNat - 48)) l else none
  | _ + 1, _, [] => none

/-- Require a literal separator character. -/
def expectChar (c : Char) : List Char → Option (List Char)
  | c' :: l => if c' = c then some l else none
  | [] => none

/-- Parser for the character output of `DT.isoformatL`: the strict
`datetime.fromisoformat` grammar covering exactly what `isoformat`
emits (`ValueError` on anything else becomes `none`). -/
def parseDTL (l : List Char) : Option DT := do
  let (y, l) ← readNumAux 4 0 l
  let l ← expectChar '-' l
  let (mo, l) ← readNumAux 2 0 l
  let l ← expectChar '-' l
  let (dy, l) ← readNumAux 2 0 l
  let l ← expectChar 'T' l
  let (hh, l) ← readNumAux 2 0 l
  let l ← expectChar ':' l
  let (mi, l) ← readNumAux 2 0 l
  let l ← expectChar ':' l
  let (ss, l) ← readNumAux 2 0 l
  match l with
  | [] => some ⟨y, mo, dy, hh, mi, ss, 0⟩
  | c :: l2 =>
    if c = '.' then
      match readNumAux 6 0 l2 with
      | some (us, l3) => if l3 = [] then some ⟨y, mo, dy, hh, mi, ss, us⟩ else none
      | none => none
    else none

/-- Translation of `datetime.fromisoformat` on the strings `isoformat`
produces. -/
def DT.fromisoformat (s : String) : Option DT := parseDTL s.data

/-- Bounds under which every field of a real `datetime` fits its
fixed-width decimal slot (true of all valid datetimes). -/
def DT.inRange (d : DT) : Bool :=
  decide (d.year < 10000) && decide (d.month < 100) && decide (d.day < 100) &&
    decide (d.hour < 100) && decide (d.minute < 100) && decide (d.second < 100) &&
    decide (d.microsecond < 1000000)

namespace Vanna

/-- Dataclass `Task` at the serialization level: the engine-facing
timestamps are `datetime` values (`DT`), exactly the fields of the
Python dataclass. -/
structure Task where
  id : String
  ttype : String
  payload : List (String × Json)
  status : TaskStatus
  priority : TaskPriority
  created_at : Option DT
  started_at : Option DT
  completed_at : Option DT
  result : Option Json
  error : Option String
  retry_count : Nat
  max_retries : Nat
  timeout : Int
  session_id : Option String
  user_id : Option String

/-- Dictionary produced by `Task.to_dict`: datetimes have become ISO
strings, `status` its string value, `priority` its integer value; all
other fields pass through `asdict` unchanged. -/
structure TaskDict where
  id : String
  ttype : String
  payload : List (String × Json)
  status : String
  priority : Int
  created_at : Option String
  started_at : Option String
  completed_at : Option String
  result : Option Json
  error : Option String
  retry_count : Nat
  max_retries : Nat
  timeout : Int
  session_id : Option String
  user_id : Option String

/-- Translation of `Task.to_dict`. -/
def Task.to_dict (t : Task) : TaskDict :=
  { id := t.id, ttype := t.ttype, payload := t.payload,
    status := t.status.value, priority := t.priority.value,
    created_at := t.created_at.map DT.isoformat,
    started_at := t.started_at.map DT.isoformat,
    completed_at := t.completed_at.map DT.isoformat,
    result := t.result, error := t.error, retry_count := t.retry_count,
    max_retries := t.max_retries, timeout := t.timeout,
    session_id := t.session_id, user_id := t.user_id }

/-- Translation of the enum call `TaskStatus(value)`: `ValueError` on an
unknown value becomes `none`. -/
def TaskStatus.ofValue (s : String) : Option TaskStatus :=
  if s = "pending" then some .pending
  else if s = "running" then some .running
  else if s = "completed" then some .completed
  else if s = "failed" then some .failed
  else if s = "cancelled" then some .cancelled
  else if s = "expired" then some .expired
  else none

/-- Translation of the enum call `TaskPriority(value)`. -/
def TaskPriority.ofValue (i : Int) : Option TaskPriority :=
  if i = 1 then some .low
  else if i = 2 then some .normal
  else if i = 3 then some .high
  else if i = 4 then some .critical
  else none

/-- Timestamp handling of `Task.from_dict`: a present (truthy) string is
parsed with `datetime.fromisoformat` (whose `ValueError` aborts the
call); an absent value stays `None`.  The empty string, falsy in Python,
would be passed through unparsed and yield an ill-typed record; it is
modelled as a failure (`fromisoformat ""` is `none` anyway). -/
def parseOptDT : Option String → Option (Option DT)
  | none => some none
  | some s => (DT.fromisoformat s).map some

/-- Translation of `Task.from_dict`. -/
def Task.from_dict (d : TaskDict) : Option Task := do
  let ca ← parseOptDT d.created_at
  let sa ← parseOptDT d.started_at
  let co ← parseOptDT d.completed_at
  let st ← TaskStatus.ofValue d.status
  let pr ← TaskPriority.ofValue d.priority
  some { id := d.id, ttype := d.ttype, payload := d.payload, status := st,
         priority := pr, created_at := ca, started_at := sa, completed_at := co,
         result := d.result, error := d.error, retry_count := d.retry_count,
         max_retries := d.max_retries, timeout := d.timeout,
         session_id := d.session_id, user_id := d.user_id }

end Vanna

/-- Example engine state: one task `"a"` submitted at time 0 to a fresh
engine. -/
def exState : EngineState :=
  (submitTask initState "a" "echo" [] TaskPriority.normal 300 3 none none 0).2

/-- The record stored for `"a"` in `exState`. -/
def exRec : TaskRec :=
  { id := "a", ttype := "echo", payload := [], status := .pending,
    priority := .normal, created_at := 0, started_at := none, completed_at := none,
    result := none, error := none, retry_count := 0, max_retries := 3,
    timeout := 300, session_id := none, user_id := none }

/-- Example failing-handler scenario: priority `NORMAL`, timeout 300,
`max_retries = 3`, submitted at time 0, every attempt at time 0. -/
def exFailSc : FailScenario :=
  { id := "a", ttype := "t", payload := [], priority := .normal, timeout := 300,
    max_retries := 3, t0 := 0, times := fun _ => 0, err := "boom" }

/-- Example task for the serialization round trip. -/
def exTask : Vanna.Task :=
  { id := "a1", ttype := "echo", payload := [("x", Json.num 1)], status := .running,
    priority := .critical, created_at := some ⟨2024, 1, 15, 10, 30, 0, 123456⟩,
    started_at := some ⟨2024, 1, 15, 10, 30, 5, 0⟩, completed_at := none,
    result := none, error := none, retry_count := 1, max_retries := 3,
    timeout := 300, session_id := some "s", user_id := none }

/-- Queue coherence invariant: a stored record that is no longer
`pending` has no entry in the priority queue (workers remove the id on
pop, and every path that re-inserts it also relabels it `pending`). -/
def QInv (s : EngineState) : Prop :=
  ∀ id t, hget s.tasks id = some (Stored.good t) →
    t.status ≠ TaskStatus.pending → hget s.queue id = none

/-- Queue after two same-instant submissions: a `CRITICAL` task
`"crit"` and a `LOW` task `"low"`, both at time 1000. -/
def exC1Queue : List (String × Int) :=
  (submitTask (submitTask initState "crit" "q" [] TaskPriority.critical 300 3
      none none 1000).2 "low" "q" [] TaskPriority.low 300 3 none none 1000).2.queue

/-- State after submitting task `"a"` at time 1000 and one worker
iteration in which its handler raises (first retry requeued). -/
def exC2State : EngineState :=
  workerStep (submitTask initState "a" "t" [] TaskPriority.normal 300 3
    none none 1000).2 1000 true (.error "boom")

/-- State after submitting a task of a type with no registered handler
and one worker iteration picking it up. -/
def exC3State : EngineState :=
  workerStep (submitTask initState "t1" "unregistered" [] TaskPriority.normal 300 3
    none none 0).2 0 false (.ok .null)

/-- State after submitting a pending task (timeout 300) at time 0 and
running one full Reaper cycle at time 400. -/
def exC4State : EngineState :=
  reaperCycle (submitTask initState "t1" "t" [] TaskPriority.normal 300 3
    none none 0).2 400 3600

/-- State holding one malformed stored record under id `"x"`. -/
def exC8BadState : EngineState :=
  { tasks := [("x", Stored.bad)], queue := [], processing := [], results := [],
    stats := ⟨0, 0, 0, 0⟩ }

theorem hget_hset_self {α : Type} (l : List (String × α)) (k : String) (v : α) :
    hget (hset l k v) k = some v := by
  induction l with
  | nil => simp [hset, hget]
  | cons p t ih =>
    obtain ⟨k0, v0⟩ := p
    by_cases h0 : k0 = k <;> simp [hset, hget, h0, ih]

theorem hget_hset_ne {α : Type} (l : List (String × α)) (k k' : String) (v : α)
    (h : k' ≠ k) : hget (hset l k v) k' = hget l k' := by
  have h' : ¬ (k = k') := fun hh => h hh.symm
  induction l with
  | nil => simp [hset, hget, h']
  | cons p t ih =>
    obtain ⟨k0, v0⟩ := p
    by_cases h0 : k0 = k
    · subst h0
      simp [hset, hget, h']
    · simp [hset, if_neg h0, hget, ih]

theorem hget_hdel_self {α : Type} (l : List (String × α)) (k : String) :
    hget (hdel l k) k = none := by
  induction l with
  | nil => simp [hdel, hget]
  | cons p t ih =>
    obtain ⟨k0, v0⟩ := p
    by_cases h0 : k0 = k <;> simp [hdel, hget, h0, ih]

theorem hget_hdel_ne {α : Type} (l : List (String × α)) (k k' : String)
    (h : k' ≠ k) : hget (hdel l k) k' = hget l k' := by
  have h' : ¬ (k = k') := fun hh => h hh.symm
  induction l with
  | nil => simp [hdel]
  | cons p t ih =>
    obtain ⟨k0, v0⟩ := p
    by_cases h0 : k0 = k
    · subst h0
      simp [hdel, hget, h', ih]
    · simp [hdel, if_neg h0, hget, ih]

theorem hget_hdel_some {α : Type} (l : List (String × α)) (k k' : String) (v : α)
    (h : hget (hdel l k) k' = some v) : hget l k' = some v := by
  by_cases hk : k' = k
  · subst hk
    rw [hget_hdel_self] at h
    exact absurd h (by simp)
  · rwa [hget_hdel_ne l k k' hk] at h

theorem hget_hdel_none {α : Type} (l : List (String × α)) (k k' : String)
    (h : hget l k' = none) : hget (hdel l k) k' = none := by
  by_cases hk : k' = k
  · subst hk
    apply hget_hdel_self
  · rwa [hget_hdel_ne l k k' hk]

theorem hget_none_not_mem {α : Type} (l : List (String × α)) (k : String) (v : α) :
    hget l k = none → (k, v) ∉ l := by
  induction l with
  | nil => simp
  | cons p t ih =>
    obtain ⟨k0, v0⟩ := p
    intro h hmem
    by_cases h0 : k0 = k
    · simp [hget, h0] at h
    · simp only [hget, if_neg h0] at h
      rcases List.mem_cons.mp hmem with h1 | h1
      · exact h0 (congrArg Prod.fst h1.symm)
      · exact ih h h1

theorem foldl_pick_mem (t : List (String × Int)) (b : String × Int) :
    t.foldl (fun b q => if q.2 < b.2 ∨ (q.2 = b.2 ∧ q.1 < b.1) then q else b) b = b ∨
      t.foldl (fun b q => if q.2 < b.2 ∨ (q.2 = b.2 ∧ q.1 < b.1) then q else b) b ∈ t := by
  induction t generalizing b with
  | nil => simp
  | cons q t ih =>
    simp only [List.foldl_cons]
    rcases ih (if q.2 < b.2 ∨ (q.2 = b.2 ∧ q.1 < b.1) then q else b) with h | h
    · rw [h]
      by_cases hc : q.2 < b.2 ∨ (q.2 = b.2 ∧ q.1 < b.1)
      · rw [if_pos hc]
        right
        exact List.mem_cons_self q t
      · rw [if_neg hc]
        left
        rfl
    · right; exact List.mem_cons_of_mem q h

theorem zpopmin_mem (l : List (String × Int)) (p : String × Int)
    (q : List (String × Int)) (h : zpopmin l = (some p, q)) : p ∈ l := by
  cases l with
  | nil => simp [zpopmin] at h
  | cons a t =>
    simp only [zpopmin] at h
    have hp : p = t.foldl (fun b q => if q.2 < b.2 ∨ (q.2 = b.2 ∧ q.1 < b.1) then q else b) a := by
      have := congrArg Prod.fst h
      simpa using this.symm
    rcases foldl_pick_mem t a with h1 | h1
    · rw [hp, h1]; exact List.mem_cons_self a t
    · rw [hp]; exact List.mem_cons_of_mem a h1

theorem zpopmin_rest (l : List (String × Int)) (p : String × Int)
    (q : List (String × Int)) (h : zpopmin l = (some p, q)) : q = hdel l p.1 := by
  cases l with
  | nil => simp [zpopmin] at h
  | cons a t =>
    simp only [zpopmin] at h
    have h1 := congrArg Prod.fst h
    have h2 := congrArg Prod.snd h
    simp only at h1 h2
    rw [← h2]
    have : p = t.foldl (fun b q => if q.2 < b.2 ∨ (q.2 = b.2 ∧ q.1 < b.1) then q else b) a := by
      simpa using h1.symm
    rw [this]

theorem zpopmin_none (l : List (String × Int)) (q : List (String × Int))
    (h : zpopmin l = (none, q)) : l = [] := by
  cases l with
  | nil => rfl
  | cons a t => simp [zpopmin] at h

theorem hget_cleanup_fold_none (tl : List (String × Stored)) (q : List (String × Int))
    (now : Int) (k : String) (h : hget q k = none) :
    hget (tl.foldl (fun q p => if cleanupSelects now p then hdel q p.1 else q) q) k = none := by
  induction tl generalizing q with
  | nil => simpa using h
  | cons p t ih =>
    simp only [List.foldl_cons]
    by_cases hc : cleanupSelects now p
    · rw [if_pos hc]
      exact ih _ (hget_hdel_none _ _ _ h)
    · rw [if_neg hc]
      exact ih _ h

theorem processTask_tasks_ne (s : EngineState) (id : String) (now : Int) (hx : Bool)
    (hr : Except String Json) (k : String) (hk : k ≠ id) :
    hget (processTask s id now hx hr).tasks k = hget s.tasks k := by
  rcases h1 : hget s.tasks id with _ | st
  · simp [processTask, h1]
  · cases st with
    | bad => simp [processTask, h1]
    | good t =>
      rcases he : isTaskExpired now t with _ | _
      · cases hx with
        | false => simp [processTask, h1, he, hget_hset_ne, hk]
        | true =>
          cases hr with
          | ok r => simp [processTask, h1, he, hget_hset_ne, hk]
          | error e =>
            by_cases hrc : t.retry_count + 1 ≤ t.max_retries
            · simp [processTask, h1, he, hrc, hget_hset_ne, hk]
            · simp [processTask, h1, he, hrc, hget_hset_ne, hk]
      · simp [processTask, h1, he, hget_hset_ne, hk]

theorem processTask_queue_ne (s : EngineState) (id : String) (now : Int) (hx : Bool)
    (hr : Except String Json) (k : String) (hk : k ≠ id) :
    hget (processTask s id now hx hr).queue k = hget s.queue k := by
  rcases h1 : hget s.tasks id with _ | st
  · simp [processTask, h1]
  · cases st with
    | bad => simp [processTask, h1]
    | good t =>
      rcases he : isTaskExpired now t with _ | _
      · cases hx with
        | false => simp [processTask, h1, he]
        | true =>
          cases hr with
          | ok r => simp [processTask, h1, he]
          | error e =>
            by_cases hrc : t.retry_count + 1 ≤ t.max_retries
            · simp [processTask, h1, he, hrc, hget_hset_ne, hk]
            · simp [processTask, h1, he, hrc]
      · simp [processTask, h1, he]

theorem qinv_processTask (s : EngineState) (id : String) (now : Int) (hx : Bool)
    (hr : Except String Json) (hq : hget s.queue id = none) (hinv : QInv s) :
    QInv (processTask s id now hx hr) := by
  intro k t' hk ht'
  by_cases hki : k = id
  · subst hki
    rcases h1 : hget s.tasks k with _ | st
    · simp only [processTask, h1] at hk ⊢
      simp at hk
    · cases st with
      | bad =>
        simp only [processTask, h1] at hk ⊢
        simp at hk
      | good t =>
        rcases he : isTaskExpired now t with _ | _
        · cases hx with
          | false =>
            simp only [processTask, h1, he] at hk ⊢
            exact hq
          | true =>
            cases hr with
            | ok r =>
              simp only [processTask, h1, he] at hk ⊢
              exact hq
            | error e =>
              by_cases hrc : t.retry_count + 1 ≤ t.max_retries
              · simp only [processTask, h1, he, if_pos hrc] at hk ⊢
                simp [hget_hset_self] at hk
                rw [← hk] at ht'
                simp at ht'
              · simp only [processTask, h1, he, if_neg hrc] at hk ⊢
                exact hq
        · simp only [processTask, h1, he] at hk ⊢
          exact hq
  · rw [processTask_queue_ne s id now hx hr k hki]
    rw [processTask_tasks_ne s id now hx hr k hki] at hk
    exact hinv k t' hk ht'

theorem qinv_cancelTask (s : EngineState) (id : String) (now : Int) (hinv : QInv s) :
    QInv (cancelTask s id now).2 := by
  intro k t' hk ht'
  rcases h1 : hget s.tasks id with _ | st
  · simp only [cancelTask, h1] at hk ⊢
    exact hget_hdel_none _ _ _ (hinv k t' hk ht')
  · cases st with
    | bad =>
      simp only [cancelTask, h1] at hk ⊢
      exact hget_hdel_none _ _ _ (hinv k t' hk ht')
    | good t =>
      by_cases hp : t.status = TaskStatus.pending
      · simp only [cancelTask, h1, if_pos hp] at hk ⊢
        by_cases hki : k = id
        · subst hki
          exact hget_hdel_self _ _
        · rw [hget_hset_ne _ _ _ _ hki] at hk
          exact hget_hdel_none _ _ _ (hinv k t' hk ht')
      · simp only [cancelTask, h1, if_neg hp] at hk ⊢
        exact hget_hdel_none _ _ _ (hinv k t' hk ht')

theorem qinv_step (s s' : EngineState) (hs : Step s s') (hinv : QInv s) : QInv s' := by
  cases hs with
  | submit id ttype payload priority timeout max_retries session_id user_id now hfresh =>
    intro k t' hk ht'
    by_cases hki : k = id
    · subst hki
      simp only [submitTask] at hk
      rw [hget_hset_self] at hk
      simp only [Option.some.injEq, Stored.good.injEq] at hk
      rw [← hk] at ht'
      simp at ht'
    · simp only [submitTask] at hk ⊢
      rw [hget_hset_ne _ _ _ _ hki] at hk
      rw [hget_hset_ne _ _ _ _ hki]
      exact hinv k t' hk ht'
  | cancel id now => exact qinv_cancelTask s id now hinv
  | worker now hx hr =>
    rcases hz : zpopmin s.queue with ⟨o, q⟩
    cases o with
    | none =>
      simp only [workerStep, hz]
      exact hinv
    | some p =>
      obtain ⟨id0, sc⟩ := p
      simp only [workerStep, hz]
      have hrest : q = hdel s.queue id0 := zpopmin_rest _ _ _ hz
      subst hrest
      apply qinv_processTask
      · exact hget_hdel_self _ _
      · intro k t hk ht
        exact hget_hdel_none _ _ _ (hinv k t hk ht)
  | reaper now =>
    intro k t' hk ht'
    simp only [cleanupExpiredTasks] at hk ⊢
    exact hget_cleanup_fold_none _ _ _ _ (hinv k t' hk ht')
  | purge now ttl =>
    intro k t' hk ht'
    simp only [cleanupOldResults] at hk ⊢
    exact hinv k t' hk ht'

theorem reachable_qinv (s : EngineState) (hs : Reachable s) : QInv s := by
  induction hs with
  | refl =>
    intro k t hk ht
    simp [initState, hget] at hk
  | tail hab hbc ih => exact qinv_step _ _ hbc ih

theorem cancelled_frozen_step (s s' : EngineState) (hs : Step s s') (id : String)
    (t : TaskRec) (htasks : hget s.tasks id = some (Stored.good t))
    (hst : t.status = TaskStatus.cancelled) (hq : hget s.queue id = none) :
    hget s'.tasks id = some (Stored.good t) ∧ hget s'.queue id = none := by
  cases hs with
  | submit id2 ttype payload priority timeout max_retries session_id user_id now hfresh =>
    have hne : id ≠ id2 := by
      intro h
      rw [← h] at hfresh
      rw [hfresh] at htasks
      exact absurd htasks (by simp)
    simp only [submitTask]
    rw [hget_hset_ne _ _ _ _ hne, hget_hset_ne _ _ _ _ hne]
    exact ⟨htasks, hq⟩
  | cancel id2 now =>
    by_cases hki : id2 = id
    · subst hki
      have hp : ¬ (t.status = TaskStatus.pending) := by
        rw [hst]
        simp
      refine ⟨?_, ?_⟩
      · simp only [cancelTask, htasks, if_neg hp]
      · simp only [cancelTask, htasks, if_neg hp]
        exact hget_hdel_none _ _ _ hq
    · have hne : id ≠ id2 := fun h => hki h.symm
      rcases h1 : hget s.tasks id2 with _ | st
      · simp only [cancelTask, h1]
        exact ⟨htasks, hget_hdel_none _ _ _ hq⟩
      · cases st with
        | bad =>
          simp only [cancelTask, h1]
          exact ⟨htasks, hget_hdel_none _ _ _ hq⟩
        | good t2 =>
          by_cases hp : t2.status = TaskStatus.pending
          · simp only [cancelTask, h1, if_pos hp]
            rw [hget_hset_ne _ _ _ _ hne]
            exact ⟨htasks, hget_hdel_none _ _ _ hq⟩
          · simp only [cancelTask, h1, if_neg hp]
            exact ⟨htasks, hget_hdel_none _ _ _ hq⟩
  | worker now hx hr =>
    rcases hz : zpopmin s.queue with ⟨o, q⟩
    cases o with
    | none =>
      simp only [workerStep, hz]
      exact ⟨htasks, hq⟩
    | some p =>
      obtain ⟨id0, sc⟩ := p
      have hmem : (id0, sc) ∈ s.queue := zpopmin_mem _ _ _ hz
      have hne : id ≠ id0 := by
        intro h
        exact hget_none_not_mem s.queue id sc hq (h ▸ hmem)
      have hrest : q = hdel s.queue id0 := zpopmin_rest _ _ _ hz
      simp only [workerStep, hz]
      rw [processTask_tasks_ne _ _ _ _ _ _ hne, processTask_queue_ne _ _ _ _ _ _ hne]
      subst hrest
      exact ⟨htasks, hget_hdel_none _ _ _ hq⟩
  | reaper now =>
    simp only [cleanupExpiredTasks]
    exact ⟨htasks, hget_cleanup_fold_none _ _ _ _ hq⟩
  | purge now ttl =>
    simp only [cleanupOldResults]
    exact ⟨htasks, hq⟩

theorem cancelled_frozen_reach (s s' : EngineState)
    (h : Relation.ReflTransGen Step s s') (id : String) (t : TaskRec)
    (htasks : hget s.tasks id = some (Stored.good t))
    (hst : t.status = TaskStatus.cancelled) (hq : hget s.queue id = none) :
    hget s'.tasks id = some (Stored.good t) ∧ hget s'.queue id = none := by
  induction h with
  | refl => exact ⟨htasks, hq⟩
  | tail hab hbc ih => exact cancelled_frozen_step _ _ hbc id t ih.1 hst ih.2

/-- C1: the claim asserts dequeue order is priority-descending (a
`Critical` task before any `Low` task submitted at the same or later
time) given score `priority.value * 1000000 + time` and the worker
pop primitive.  The pop primitive is `BZPOPMIN`, which returns the
minimum score, and `CRITICAL` (4) scores above `LOW` (1): with both
tasks submitted at time 1000 the LOW task is dequeued first, the
CRITICAL one second — the opposite of the claimed order. -/
theorem C1_low_priority_dequeued_first :
    (zpopmin exC1Queue).1 = some ("low", 1001000) ∧
    (zpopmin (zpopmin exC1Queue).2).1 = some ("crit", 4001000) := ⟨rfl, rfl⟩

/-- C2: after its first failure the task `"a"` is relabeled `pending`
and re-inserted with score `1000 + min(2^1, 300) = 1002`, the claimed
eligibility instant — but the dequeue primitive (`BZPOPMIN`, modelled
by `zpopmin`, which takes no clock at all) returns it immediately: the
very next worker iteration, still at time 1000 < 1002, pops it, runs
it and completes it with `started_at = 1000`.  The eligibility window
is never enforced. -/
theorem C2_backoff_not_enforced :
    hget exC2State.queue "a" = some 1002 ∧
    (zpopmin exC2State.queue).1 = some ("a", 1002) ∧
    (∃ t, hget (workerStep exC2State 1000 true (.ok Json.null)).tasks "a"
        = some (Stored.good t) ∧ t.status = TaskStatus.completed ∧
        t.started_at = some 1000) := by
  exact ⟨rfl, rfl, ⟨_, rfl, rfl, rfl⟩⟩

/-- C3: a dequeued task with no registered handler is claimed to
transition to terminal `Failed`.  In the code the
`raise ValueError("No handler registered ...")` sits outside the inner
`try`, so the outer `except` only logs and clears the processing set:
the stored record remains `running` (with `error` unset), no result is
written, and the id is indeed never re-enqueued. -/
theorem C3_missing_handler_leaves_running :
    (∃ t, hget exC3State.tasks "t1" = some (Stored.good t) ∧
       t.status = TaskStatus.running ∧ t.error = none ∧ t.retry_count = 0) ∧
    hget exC3State.queue "t1" = none ∧
    hget exC3State.results "t1" = none ∧
    exC3State.processing = [] := by
  exact ⟨⟨_, rfl, rfl, rfl, rfl⟩, rfl, rfl, rfl⟩

/-- C4: the Reaper cycle is claimed to set an over-age `Pending`
record's status to `Expired`.  The code's sweep collects the expired
pending ids and removes them from the queue, but its loop body never
writes the record: after a cycle at time 400 the task submitted at
time 0 with timeout 300 is gone from the queue yet still stored as
`pending`.  (The sweep never mutates any record at all, so the
claim's `Running`-records clause does hold.) -/
theorem C4_reaper_removes_but_never_marks :
    hget exC4State.queue "t1" = none ∧
    (∃ t, hget exC4State.tasks "t1" = some (Stored.good t) ∧
       t.status = TaskStatus.pending) ∧
    (∀ s now, (cleanupExpiredTasks s now).tasks = s.tasks) := by
  exact ⟨rfl, ⟨_, rfl, rfl⟩, fun s now => rfl⟩

/-- C7: `submit_task` stores the `pending` record (with
`retry_count = 0`) via `HSET` before returning, so `get_task_status`
on the returned id immediately yields that record, never not-found. -/
theorem C7_submit_immediately_visible (s : EngineState) (id ttype : String)
    (payload : List (String × Json)) (priority : TaskPriority) (timeout : Int)
    (max_retries : Nat) (session_id user_id : Option String) (now : Int) :
    ∃ t, getTaskStatus (submitTask s id ttype payload priority timeout max_retries
        session_id user_id now).2 id = some t ∧
      t.status = TaskStatus.pending ∧ t.retry_count = 0 := by
  refine ⟨{ id := id, ttype := ttype, payload := payload, status := .pending,
            priority := priority, created_at := now, started_at := none,
            completed_at := none, result := none, error := none, retry_count := 0,
            max_retries := max_retries, timeout := timeout,
            session_id := session_id, user_id := user_id }, ?_, rfl, rfl⟩
  simp only [getTaskStatus, submitTask]
  rw [hget_hset_self]
  simp

/-- C8 counterexample: the claim requires a malformed stored record to
surface through `get_task_status` as an error state distinguishable
from not-found; in the code `json.loads` raises, the `except` clause
returns `None`, and `None` is exactly the not-found value: the
malformed-record state and the empty store are indistinguishable. -/
theorem C8_counterexample :
    getTaskStatus exC8BadState "x" = none ∧ getTaskStatus initState "x" = none :=
  ⟨rfl, rfl⟩

/-- C8 (amended): on a store failure `submit_task` re-raises and so
surfaces the error, but `get_task_status` returns `None` and
`cancel_task` returns `False`, swallowing it at the API boundary; a
malformed stored record likewise comes back from `get_task_status` as
`None`, the same value as for a missing task. -/
theorem C8_error_surfacing (s : EngineState) (id ttype : String)
    (payload : List (String × Json)) (priority : TaskPriority) (timeout : Int)
    (max_retries : Nat) (session_id user_id : Option String) (now : Int) :
    submitTaskApi true s id ttype payload priority timeout max_retries
      session_id user_id now = Except.error () ∧
    getTaskStatusApi true s id = none ∧
    cancelTaskApi true s id now = false ∧
    (hget s.tasks id = some Stored.bad → getTaskStatus s id = none) := by
  refine ⟨rfl, rfl, rfl, fun hb => ?_⟩
  simp [getTaskStatus, hb]

/-- C8 witness: the amended behaviour evaluated on the concrete
malformed-record state. -/
theorem C8_witness :
    hget exC8BadState.tasks "x" = some Stored.bad ∧
    submitTaskApi true exC8BadState "x" "t" [] TaskPriority.normal 300 3
      none none 0 = Except.error () ∧
    getTaskStatusApi true exC8BadState "x" = none ∧
    cancelTaskApi true exC8BadState "x" 0 = false ∧
    getTaskStatus exC8BadState "x" = none := by
  have h := C8_error_surfacing exC8BadState "x" "t" [] TaskPriority.normal 300 3 none none 0
  exact ⟨rfl, h.1, h.2.1, h.2.2.1, h.2.2.2 rfl⟩

/-- C6: `cancel_task` on an id whose stored record is still `pending`
returns `true`, rewrites the record to `cancelled` (stamping
`completed_at`), and the task is never subsequently executed — in every
later reachable state the record is still exactly that `cancelled`
record, so it is never `running` and `started_at` is never set.  On an
id whose record is `running` or terminal, the call returns `false`
(the id cannot be queued, by the reachable-state queue invariant) and
leaves the task store untouched. -/
theorem C6_cancel_task (s : EngineState) (hs : Reachable s) (id : String)
    (t : TaskRec) (ht : hget s.tasks id = some (Stored.good t)) (now : Int) :
    (t.status = TaskStatus.pending →
      (cancelTask s id now).1 = true ∧
      hget (cancelTask s id now).2.tasks id =
        some (Stored.good { t with status := TaskStatus.cancelled,
                                   completed_at := some now }) ∧
      (∀ s', Relation.ReflTransGen Step (cancelTask s id now).2 s' →
        hget s'.tasks id =
          some (Stored.good { t with status := TaskStatus.cancelled,
                                     completed_at := some now }))) ∧
    (t.status ≠ TaskStatus.pending →
      (cancelTask s id now).1 = false ∧ (cancelTask s id now).2.tasks = s.tasks) := by
  constructor
  · intro hp
    have h1 : (cancelTask s id now).1 = true := by
      simp only [cancelTask, ht, if_pos hp]
    have h3 : hget (cancelTask s id now).2.tasks id =
        some (Stored.good { t with status := TaskStatus.cancelled,
                                   completed_at := some now }) := by
      simp only [cancelTask, ht, if_pos hp]
      exact hget_hset_self _ _ _
    have h4 : hget (cancelTask s id now).2.queue id = none := by
      simp only [cancelTask, ht, if_pos hp]
      exact hget_hdel_self _ _
    exact ⟨h1, h3, fun s' hreach =>
      (cancelled_frozen_reach _ s' hreach id _ h3 rfl h4).1⟩
  · intro hp
    have hqnone : hget s.queue id = none := reachable_qinv s hs id t ht hp
    constructor
    · simp only [cancelTask, ht, if_neg hp]
      rw [hqnone]
      rfl
    · simp only [cancelTask, ht, if_neg hp]

/-- C6 witness: cancelling the freshly submitted pending task `"a"` at
time 5 succeeds and stores the cancelled record. -/
theorem C6_witness :
    Reachable exState ∧ hget exState.tasks "a" = some (Stored.good exRec) ∧
    (cancelTask exState "a" 5).1 = true ∧
    hget (cancelTask exState "a" 5).2.tasks "a" =
      some (Stored.good { exRec with status := TaskStatus.cancelled,
                                     completed_at := some 5 }) := by
  have hr : Reachable exState :=
    Relation.ReflTransGen.single
      (Step.submit initState "a" "echo" [] TaskPriority.normal 300 3 none none 0 rfl)
  have h := C6_cancel_task exState hr "a" exRec rfl 5
  exact ⟨hr, rfl, (h.1 rfl).1, (h.1 rfl).2.1⟩

theorem processTask_stats_cancelled (s : EngineState) (id : String) (now : Int)
    (hx : Bool) (hr : Except String Json) :
    (processTask s id now hx hr).stats.tasks_cancelled = s.stats.tasks_cancelled := by
  rcases h1 : hget s.tasks id with _ | st
  · simp [processTask, h1]
  · cases st with
    | bad => simp [processTask, h1]
    | good t =>
      rcases he : isTaskExpired now t with _ | _
      · cases hx with
        | false => simp [processTask, h1, he]
        | true =>
          cases hr with
          | ok r => simp [processTask, h1, he]
          | error e =>
            by_cases hrc : t.retry_count + 1 ≤ t.max_retries
            · simp [processTask, h1, he, hrc]
            · simp [processTask, h1, he, hrc]
      · simp [processTask, h1, he]

theorem cancelTask_stats (s : EngineState) (id : String) (now : Int) :
    (cancelTask s id now).2.stats = s.stats := by
  rcases h1 : hget s.tasks id with _ | st
  · simp [cancelTask, h1]
  · cases st with
    | bad => simp [cancelTask, h1]
    | good t =>
      by_cases hp : t.status = TaskStatus.pending
      · simp [cancelTask, h1, hp]
      · simp [cancelTask, h1, hp]

theorem step_stats_cancelled (s s' : EngineState) (hs : Step s s') :
    s'.stats.tasks_cancelled = s.stats.tasks_cancelled := by
  cases hs with
  | submit id ttype payload priority timeout max_retries session_id user_id now hfresh =>
    rfl
  | cancel id now => rw [cancelTask_stats]
  | worker now hx hr =>
    rcases hz : zpopmin s.queue with ⟨o, q⟩
    cases o with
    | none => simp [workerStep, hz]
    | some p =>
      obtain ⟨id0, sc⟩ := p
      simp only [workerStep, hz]
      exact processTask_stats_cancelled _ _ _ _ _
  | reaper now => rfl
  | purge now ttl => rfl

/-- C10: no engine operation ever increments the `tasks_cancelled`
counter after initialization — a successful `cancel_task` included —
so the value reported by `get_stats` is invariantly 0 in every
reachable state. -/
theorem C10_cancelled_counter_zero (s : EngineState) (hs : Reachable s) :
    (getStats s).tasks_cancelled = 0 := by
  have h : s.stats.tasks_cancelled = 0 := by
    induction hs with
    | refl => rfl
    | tail hab hbc ih => rw [step_stats_cancelled _ _ hbc]; exact ih
  exact h

/-- C10 witness: the counter is 0 in the concrete reachable state with
one submitted task (and stays 0 through a successful cancellation,
which is itself a reachable state via a cancel step). -/
theorem C10_witness :
    Reachable exState ∧ (getStats exState).tasks_cancelled = 0 ∧
    (getStats (cancelTask exState "a" 5).2).tasks_cancelled = 0 := by
  have hr : Reachable exState :=
    Relation.ReflTransGen.single
      (Step.submit initState "a" "echo" [] TaskPriority.normal 300 3 none none 0 rfl)
  have hr2 : Reachable (cancelTask exState "a" 5).2 :=
    Relation.ReflTransGen.tail hr (Step.cancel exState "a" 5)
  exact ⟨hr, C10_cancelled_counter_zero exState hr,
    C10_cancelled_counter_zero _ hr2⟩

theorem recAt_status (sc : FailScenario) (k : Nat) :
    (sc.recAt k).status = TaskStatus.pending := by
  cases k <;> rfl

theorem recAt_retry (sc : FailScenario) (k : Nat) :
    (sc.recAt k).retry_count = k := by
  cases k <;> rfl

theorem recAt_max (sc : FailScenario) (k : Nat) :
    (sc.recAt k).max_retries = sc.max_retries := by
  cases k <;> rfl

theorem recAt_not_expired (sc : FailScenario) (k : Nat)
    (h : sc.timeout ≤ 0 ∨ sc.times k - sc.t0 ≤ sc.timeout) :
    isTaskExpired (sc.times k) (sc.recAt k) = false := by
  have h1 : (sc.recAt k).timeout = sc.timeout := by cases k <;> rfl
  have h2 : (sc.recAt k).created_at = sc.t0 := by cases k <;> rfl
  unfold isTaskExpired
  rw [h1, h2]
  by_cases ht : sc.timeout ≤ 0
  · rw [if_pos ht]
  · rw [if_neg ht]
    rcases h with h | h
    · exact absurd h ht
    · simp only [decide_eq_false_iff_not]
      omega

theorem recAt_update (sc : FailScenario) (k : Nat) :
    { sc.recAt k with
      status := TaskStatus.pending,
      started_at := some (sc.times k), completed_at := some (sc.times k),
      error := some sc.err, retry_count := k + 1 } = sc.recAt (k + 1) := by
  cases k <;> rfl

theorem recAt_to_failed (sc : FailScenario) (k : Nat) :
    { sc.recAt k with
      status := TaskStatus.failed,
      started_at := some (sc.times k), completed_at := some (sc.times k),
      error := some sc.err, retry_count := k + 1 } =
    { sc.rec0 with
      status := TaskStatus.failed,
      started_at := some (sc.times k), completed_at := some (sc.times k),
      error := some sc.err, retry_count := k + 1 } := by
  cases k <;> rfl

theorem workerStep_singleton_fail (id : String) (t : TaskRec) (sc0 now : Int)
    (e : String) (st : Stats) (hexp : isTaskExpired now t = false)
    (hrc : t.retry_count + 1 ≤ t.max_retries) :
    workerStep { tasks := [(id, Stored.good t)], queue := [(id, sc0)],
                 processing := [], results := [], stats := st } now true (.error e) =
    { tasks := [(id, Stored.good { t with
        status := TaskStatus.pending,
        started_at := some now, completed_at := some now, error := some e,
        retry_count := t.retry_count + 1 })],
      queue := [(id, now + ((min (2 ^ (t.retry_count + 1)) 300 : Nat) : Int))],
      processing := [], results := [], stats := st } := by
  simp [workerStep, zpopmin, processTask, hget, hset, hdel, sadd, srem, hexp, hrc]

theorem workerStep_singleton_fail_terminal (id : String) (t : TaskRec) (sc0 now : Int)
    (e : String) (st : Stats) (hexp : isTaskExpired now t = false)
    (hrc : ¬ (t.retry_count + 1 ≤ t.max_retries)) :
    workerStep { tasks := [(id, Stored.good t)], queue := [(id, sc0)],
                 processing := [], results := [], stats := st } now true (.error e) =
    { tasks := [(id, Stored.good { t with
        status := TaskStatus.failed,
        started_at := some now, completed_at := some now, error := some e,
        retry_count := t.retry_count + 1 })],
      queue := [], processing := [],
      results := [(id, ⟨none, some e, now⟩)],
      stats := { st with tasks_failed := st.tasks_failed + 1 } } := by
  simp [workerStep, zpopmin, processTask, hget, hset, hdel, sadd, srem, hexp, hrc]

theorem workerStep_empty_queue (s : EngineState) (hq : s.queue = []) (now : Int)
    (hx : Bool) (hr : Except String Json) : workerStep s now hx hr = s := by
  simp [workerStep, hq, zpopmin]

theorem failRun_char (sc : FailScenario)
    (H : ∀ k, k ≤ sc.max_retries → sc.timeout ≤ 0 ∨ sc.times k - sc.t0 ≤ sc.timeout) :
    ∀ k, k ≤ sc.max_retries →
      sc.run k = { tasks := [(sc.id, Stored.good (sc.recAt k))],
                   queue := [(sc.id, sc.scoreAt k)],
                   processing := [], results := [], stats := ⟨0, 0, 0, 0⟩ } := by
  intro k
  induction k with
  | zero =>
    intro _
    simp [FailScenario.run, submitTask, initState, hset, FailScenario.recAt,
      FailScenario.rec0, FailScenario.scoreAt]
  | succ k ih =>
    intro hk
    have hk' : k ≤ sc.max_retries := Nat.le_of_succ_le hk
    simp only [FailScenario.run]
    rw [ih hk']
    rw [workerStep_singleton_fail sc.id (sc.recAt k) (sc.scoreAt k) (sc.times k) sc.err
        ⟨0, 0, 0, 0⟩ (recAt_not_expired sc k (H k hk'))
        (by rw [recAt_retry, recAt_max]; exact hk)]
    rw [recAt_retry, recAt_update]
    rfl

/-- C5: under a handler that raises on every invocation (and a task
that never goes stale during the run), the task is queued — hence
popped and attempted — at each of the iterations `0 … max_retries`
(that is, exactly `max_retries + 1` attempts); after the last attempt
the stored record is terminal `failed` with the captured error and
`retry_count = max_retries + 1`, the error result is stored, the queue
is empty, and every further worker iteration leaves the state fixed —
the id is never inserted into the queue again. -/
theorem C5_retry_exhaustion (sc : FailScenario)
    (H : ∀ k, k ≤ sc.max_retries → sc.timeout ≤ 0 ∨ sc.times k - sc.t0 ≤ sc.timeout) :
    (∀ k, k ≤ sc.max_retries → hget (sc.run k).queue sc.id = some (sc.scoreAt k)) ∧
    hget (sc.run (sc.max_retries + 1)).tasks sc.id = some (Stored.good sc.finalRec) ∧
    sc.finalRec.status = TaskStatus.failed ∧
    sc.finalRec.error = some sc.err ∧
    sc.finalRec.retry_count = sc.max_retries + 1 ∧
    hget (sc.run (sc.max_retries + 1)).results sc.id =
      some ⟨none, some sc.err, sc.times sc.max_retries⟩ ∧
    (sc.run (sc.max_retries + 1)).queue = [] ∧
    (∀ j, sc.run (sc.max_retries + 1 + j) = sc.run (sc.max_retries + 1)) := by
  have hchar := failRun_char sc H
  have hterm : sc.run (sc.max_retries + 1) =
      { tasks := [(sc.id, Stored.good sc.finalRec)],
        queue := [], processing := [],
        results := [(sc.id, ⟨none, some sc.err, sc.times sc.max_retries⟩)],
        stats := ⟨0, 1, 0, 0⟩ } := by
    simp only [FailScenario.run]
    rw [hchar sc.max_retries le_rfl]
    rw [workerStep_singleton_fail_terminal sc.id (sc.recAt sc.max_retries)
        (sc.scoreAt sc.max_retries) (sc.times sc.max_retries) sc.err ⟨0, 0, 0, 0⟩
        (recAt_not_expired sc sc.max_retries (H sc.max_retries le_rfl))
        (by rw [recAt_retry, recAt_max]; omega)]
    rw [recAt_retry, recAt_to_failed]
    rfl
  refine ⟨?_, ?_, rfl, rfl, rfl, ?_, ?_, ?_⟩
  · intro k hk
    rw [hchar k hk]
    simp [hget]
  · rw [hterm]
    simp [hget]
  · rw [hterm]
    simp [hget]
  · rw [hterm]
  · intro j
    induction j with
    | zero => rfl
    | succ j ihj =>
      have : sc.max_retries + 1 + (j + 1) = (sc.max_retries + 1 + j) + 1 := rfl
      rw [this]
      simp only [FailScenario.run]
      rw [ihj]
      apply workerStep_empty_queue
      rw [hterm]

/-- C5 witness: the concrete scenario (`max_retries = 3`, all attempts
at time 0) ends after 4 attempts in the terminal failed record with an
empty queue. -/
theorem C5_witness :
    (∀ k, k ≤ exFailSc.max_retries →
      exFailSc.timeout ≤ 0 ∨ exFailSc.times k - exFailSc.t0 ≤ exFailSc.timeout) ∧
    hget (exFailSc.run 4).tasks "a" = some (Stored.good exFailSc.finalRec) ∧
    (exFailSc.run 4).queue = [] := by
  have H : ∀ k, k ≤ exFailSc.max_retries →
      exFailSc.timeout ≤ 0 ∨ exFailSc.times k - exFailSc.t0 ≤ exFailSc.timeout :=
    fun k _ => Or.inr (show (0 : Int) - 0 ≤ 300 by decide)
  have h := C5_retry_exhaustion exFailSc H
  exact ⟨H, h.2.1, h.2.2.2.2.2.2.1⟩

theorem digitChar_isDigit (k : Nat) (h : k < 10) : (digitChar k).isDigit = true := by
  interval_cases k <;> decide

theorem digitChar_toNat (k : Nat) (h : k < 10) : (digitChar k).toNat = 48 + k := by
  interval_cases k <;> decide

theorem readNumAux_pad (w : Nat) : ∀ (acc n : Nat) (l : List Char), n < 10 ^ w →
    readNumAux w acc (padNum w n ++ l) = some (acc * 10 ^ w + n, l) := by
  induction w with
  | zero =>
    intro acc n l h
    rw [pow_zero] at h
    have hn : n = 0 := by omega
    subst hn
    simp [padNum, readNumAux]
  | succ w ih =>
    intro acc n l h
    have hq : n / 10 ^ w < 10 := by
      apply Nat.div_lt_of_lt_mul
      rw [← pow_succ]
      exact h
    have hdig : (digitChar (n / 10 ^ w)).isDigit = true := digitChar_isDigit _ hq
    have htn : (digitChar (n / 10 ^ w)).toNat = 48 + n / 10 ^ w := digitChar_toNat _ hq
    simp only [padNum, List.cons_append, readNumAux, hdig, if_true, htn,
      Nat.add_sub_cancel_left, List.append_eq]
    rw [ih (acc * 10 + n / 10 ^ w) (n % 10 ^ w) l (Nat.mod_lt _ (by positivity))]
    have harith : (acc * 10 + n / 10 ^ w) * 10 ^ w + n % 10 ^ w = acc * 10 ^ (w + 1) + n := by
      have hdm : 10 ^ w * (n / 10 ^ w) + n % 10 ^ w = n := Nat.div_add_mod n (10 ^ w)
      calc (acc * 10 + n / 10 ^ w) * 10 ^ w + n % 10 ^ w
          = acc * (10 ^ w * 10) + (10 ^ w * (n / 10 ^ w) + n % 10 ^ w) := by ring
        _ = acc * 10 ^ (w + 1) + n := by rw [hdm, pow_succ]
    rw [harith]

theorem readNum_pad4 (n : Nat) (l : List Char) (h : n < 10000) :
    readNumAux 4 0 (padNum 4 n ++ l) = some (n, l) := by
  have e : (10 : Nat) ^ 4 = 10000 := by norm_num
  simpa using readNumAux_pad 4 0 n l (by rw [e]; exact h)

theorem readNum_pad2 (n : Nat) (l : List Char) (h : n < 100) :
    readNumAux 2 0 (padNum 2 n ++ l) = some (n, l) := by
  have e : (10 : Nat) ^ 2 = 100 := by norm_num
  simpa using readNumAux_pad 2 0 n l (by rw [e]; exact h)

theorem readNum_pad6 (n : Nat) (h : n < 1000000) :
    readNumAux 6 0 (padNum 6 n) = some (n, []) := by
  have e : (10 : Nat) ^ 6 = 1000000 := by norm_num
  simpa using readNumAux_pad 6 0 n [] (by rw [e]; exact h)

theorem readNum_pad2_nil (n : Nat) (h : n < 100) :
    readNumAux 2 0 (padNum 2 n) = some (n, []) := by
  simpa using readNum_pad2 n [] h

set_option maxHeartbeats 1600000 in
theorem parseDTL_isoformatL (d : DT) (h : DT.inRange d = true) :
    parseDTL d.isoformatL = some d := by
  obtain ⟨y, mo, dy, hh, mi, ss, us⟩ := d
  simp only [DT.inRange, Bool.and_eq_true, decide_eq_true_eq] at h
  obtain ⟨⟨⟨⟨⟨⟨h1, h2⟩, h3⟩, h4⟩, h5⟩, h6⟩, h7⟩ := h
  by_cases hus : us = 0
  · subst hus
    simp [DT.isoformatL, parseDTL, expectChar, readNum_pad4, readNum_pad2, readNum_pad2_nil,
      h1, h2, h3, h4, h5, h6, List.cons_append, List.append_assoc]
  · simp [DT.isoformatL, parseDTL, expectChar, readNum_pad4, readNum_pad2, readNum_pad6,
      h1, h2, h3, h4, h5, h6, h7, hus, List.cons_append, List.append_assoc]

theorem fromisoformat_isoformat (d : DT) (h : DT.inRange d = true) :
    DT.fromisoformat (DT.isoformat d) = some d := by
  unfold DT.fromisoformat DT.isoformat
  exact parseDTL_isoformatL d h

theorem ofValue_status_value (st : TaskStatus) :
    Vanna.TaskStatus.ofValue st.value = some st := by
  cases st <;> rfl

theorem ofValue_priority_value (p : TaskPriority) :
    Vanna.TaskPriority.ofValue p.value = some p := by
  cases p <;> rfl

theorem parseOptDT_map (o : Option DT) (h : o.all DT.inRange = true) :
    Vanna.parseOptDT (o.map DT.isoformat) = some o := by
  cases o with
  | none => rfl
  | some d =>
    have h' : DT.inRange d = true := by simpa [Option.all] using h
    simp [Vanna.parseOptDT, Option.map, fromisoformat_isoformat d h']

/-- C9: for tasks whose payload and result are JSON values (built into
the model) and whose datetime fields are in range (true of every real
`datetime`), `Task.from_dict (Task.to_dict t)` reconstructs the task
exactly: the status and priority enums and the three optional
timestamps round-trip losslessly through the dictionary encoding. -/
theorem C9_to_dict_from_dict (t : Vanna.Task)
    (h1 : t.created_at.all DT.inRange = true)
    (h2 : t.started_at.all DT.inRange = true)
    (h3 : t.completed_at.all DT.inRange = true) :
    Vanna.Task.from_dict (Vanna.Task.to_dict t) = some t := by
  simp [Vanna.Task.from_dict, Vanna.Task.to_dict, parseOptDT_map _ h1, parseOptDT_map _ h2,
    parseOptDT_map _ h3, ofValue_status_value, ofValue_priority_value]

/-- C9 witness: the concrete example task (microsecond-precision
`created_at`, zero-microsecond `started_at`, absent `completed_at`)
round-trips exactly. -/
theorem C9_witness :
    exTask.created_at.all DT.inRange = true ∧
    exTask.started_at.all DT.inRange = true ∧
    exTask.completed_at.all DT.inRange = true ∧
    Vanna.Task.from_dict (Vanna.Task.to_dict exTask) = some exTask := by
  exact ⟨by decide, by decide, by decide,
    C9_to_dict_from_dict exTask (by decide) (by decide) (by decide)⟩
